import Mathlib

/-!
Verification of the PCM audio-processing and export pipeline of the
Text-to-Voice-Generator repository.

The source is TypeScript operating on Web Audio `AudioBuffer` objects
(`audioUtils`: convertToPCM, normalizeAudio, amplifyAudio, pitchShift,
changeSpeed, trimAudio, cutAudio) and on `Uint8Array` PCM byte sequences
(`pcmExport`: exportAsWAV, exportAsCArray).  The embedding below models
JavaScript numbers by exact rationals (ℚ), `Float32Array` channel data by
`List ℚ`, and `Uint8Array` byte data by `List ℕ`; `Math.floor` is `Int.floor`
and `Math.round` (round half toward +∞) is `fun x => ⌊x + 1/2⌋`.
-/

namespace TTS

/-- Embedding of a Web Audio `AudioBuffer`: a sample rate, a declared frame
count `length`, and per-channel sample data.  `numberOfChannels` is the number
of channel arrays. -/
structure AudioBuffer where
  sampleRate : ℚ
  length : ℕ
  channels : List (List ℚ)
deriving DecidableEq

/-- Source attribute `audioBuffer.numberOfChannels`. -/
def AudioBuffer.numberOfChannels (b : AudioBuffer) : ℕ := b.channels.length

/-- Source accessor `audioBuffer.getChannelData(c)`. -/
def getChannelData (b : AudioBuffer) (c : ℕ) : List ℚ := b.channels.getD c []

/-- The Web Audio invariant: every channel array holds exactly `length`
samples. -/
def AudioBuffer.Wellformed (b : AudioBuffer) : Prop :=
  ∀ ch ∈ b.channels, ch.length = b.length

instance (b : AudioBuffer) : Decidable b.Wellformed :=
  inferInstanceAs (Decidable (∀ ch ∈ b.channels, ch.length = b.length))

/-- Clamping `Math.max(-1, Math.min(1, x))` as used by the source. -/
def clamp (x : ℚ) : ℚ := max (-1) (min 1 x)

/-- JavaScript `Math.round`: round half toward positive infinity. -/
def jsRound (x : ℚ) : ℤ := ⌊x + 1/2⌋

/-- Array read `data[idx] || 0`: an out-of-range (or negative) index yields
`undefined`, which `|| 0` turns into `0`; a stored `0` also yields `0`. -/
def sampleAt (data : List ℚ) (idx : ℤ) : ℚ :=
  if 0 ≤ idx then data.getD idx.toNat 0 else 0

/-- The linear-interpolation kernel shared (textually duplicated) by
`convertToPCM`, `pitchShift` and `changeSpeed`:
`index = Math.floor(sourceIndex)`, `fraction = sourceIndex - index`, then
`data[index]*(1-fraction) + data[index+1]*fraction` when `index + 1` is in
range, else `data[index] || 0`. -/
def interpSample (data : List ℚ) (sourceIndex : ℚ) : ℚ :=
  let index : ℤ := ⌊sourceIndex⌋
  let fraction : ℚ := sourceIndex - index
  if index + 1 < (data.length : ℤ) then
    sampleAt data index * (1 - fraction) + sampleAt data (index + 1) * fraction
  else
    sampleAt data index

/-- Allocation size `targetLength = Math.floor((sourceData.length * sampleRate) / sourceSampleRate)`
(allocation size of the `Uint8Array`, hence `ℕ`). -/
def pcmTargetLength (srcLen : ℕ) (srcRate tgtRate : ℚ) : ℕ :=
  (⌊((srcLen : ℚ) * tgtRate) / srcRate⌋).toNat

/-- The interpolated-and-clamped sample at output index `i` of `convertToPCM`:
`sourceIndex = (i * sourceSampleRate) / sampleRate`, interpolate, clamp. -/
def pcmSample (data : List ℚ) (srcRate tgtRate : ℚ) (i : ℕ) : ℚ :=
  clamp (interpSample data (((i : ℚ) * srcRate) / tgtRate))

/-- The integer value `Math.round((sample + 1) * 127.5)` stored at index `i`. -/
def pcmVal (data : List ℚ) (srcRate tgtRate : ℚ) (i : ℕ) : ℤ :=
  jsRound ((pcmSample data srcRate tgtRate i + 1) * (127.5 : ℚ))

/-- Embedding of `convertToPCM` (audioUtils): resample channel 0 to the target rate with
linear interpolation, clamp to `[-1,1]`, and store
`Math.round((sample+1)*127.5)` in a `Uint8Array` (storage wraps mod 256,
as `Uint8Array` element assignment does). -/
def convertToPCM (b : AudioBuffer) (tgtRate : ℚ) : List ℕ :=
  let sourceData := getChannelData b 0
  (List.range (pcmTargetLength sourceData.length b.sampleRate tgtRate)).map
    (fun i => ((pcmVal sourceData b.sampleRate tgtRate i) % 256).toNat)

/-- Writing a value list into a freshly allocated zero channel of `len`
frames: writes past the end of the target are dropped (typed-array index
assignment past the end is a no-op) and unwritten tail frames stay `0`. -/
def fillFrom (len : ℕ) (vals : List ℚ) : List ℚ :=
  vals.take len ++ List.replicate (len - vals.length) 0

/-- The peak scan of `normalizeAudio`:
`max = Math.max(max, Math.abs(channelData[i]))` starting from `0`. -/
def maxAbs (l : List ℚ) : ℚ := l.foldl (fun m s => max m |s|) 0

/-- Embedding of `normalizeAudio` (audioUtils): peak over channel 0 only; if the peak is
`0` return the input buffer itself; otherwise allocate a buffer of the same
channel count / length / rate, write `channelData.map(s => s * (0.95/max))`
into channel 0 and copy every other channel verbatim. -/
def normalizeAudio (b : AudioBuffer) : AudioBuffer :=
  let channelData := getChannelData b 0
  let mx := maxAbs channelData
  if mx = 0 then b
  else
    let gain := (0.95 : ℚ) / mx
    let normalizedData := channelData.map (fun s => s * gain)
    { sampleRate := b.sampleRate
      length := b.length
      channels := (List.range b.numberOfChannels).map (fun c =>
        fillFrom b.length (if c = 0 then normalizedData else getChannelData b c)) }

/-- Embedding of `amplifyAudio` (audioUtils): allocate a buffer of the same channel count /
length / rate and write `Math.max(-1, Math.min(1, sourceData[i] * gain))` for
every channel and every source index. -/
def amplifyAudio (b : AudioBuffer) (gain : ℚ) : AudioBuffer :=
  { sampleRate := b.sampleRate
    length := b.length
    channels := (List.range b.numberOfChannels).map (fun c =>
      fillFrom b.length ((getChannelData b c).map (fun s => clamp (s * gain)))) }

/-- The per-channel resampling loop of `pitchShift` / `changeSpeed`: for each
output index `i < newLength`, interpolate the source at `sourceIndex = i * ratio`. -/
def resampleChannel (data : List ℚ) ( ratio : ℚ) (newLength : ℕ) : List ℚ :=
  (List.range newLength).map (fun (i : ℕ) => interpSample data ((i : ℚ) * ratio))

/-- Embedding of `pitchShift` (audioUtils), success path.  The source computes
`ratio = Math.pow(2, semitones / 12)` and uses only `ratio` afterwards; the
embedding takes that precomputed ratio as the parameter (for `semitones = 0`
the ratio is exactly `1`).  `newLength = Math.floor(length / ratio)`, each
channel resampled by linear interpolation at `i * ratio`.  The host
`createBuffer` throws `NotSupportedError` when `newLength` is zero or
negative; that error path is modelled by `pitchShiftChecked` below, and this
function describes only the buffer produced when the allocation succeeds. -/
def pitchShift (b : AudioBuffer) ( ratio : ℚ) : AudioBuffer :=
  let newLength := (⌊(b.length : ℚ) / ratio⌋).toNat
  { sampleRate := b.sampleRate
    length := newLength
    channels := (List.range b.numberOfChannels).map (fun c =>
      resampleChannel (getChannelData b c) ratio newLength) }

/-- Embedding of `changeSpeed` (audioUtils), success path: identical
resampling loop, parameterized directly by `speed`:
`newLength = Math.floor(length / speed)`.  As with `pitchShift`, the host
`createBuffer` throws for a zero or negative `newLength` (speed `0`, negative,
or greater than the length); that error path is modelled by
`changeSpeedChecked` below. -/
def changeSpeed (b : AudioBuffer) (speed : ℚ) : AudioBuffer :=
  let newLength := (⌊(b.length : ℚ) / speed⌋).toNat
  { sampleRate := b.sampleRate
    length := newLength
    channels := (List.range b.numberOfChannels).map (fun c =>
      resampleChannel (getChannelData b c) speed newLength) }

/-- Slice `sourceData.subarray(s, e)` for `0 ≤ s ≤ e` (the only range the pipeline
uses; JS would additionally wrap negative arguments). -/
def subarray (data : List ℚ) (s e : ℤ) : List ℚ :=
  (data.take e.toNat).drop s.toNat

/-- Embedding of `trimAudio` (audioUtils): `startSample = Math.floor(startTime * sampleRate)`,
`endSample = Math.floor(endTime * sampleRate)`, new length
`endSample - startSample` (a negative extent would make the allocation fail in
the host; modelled as an empty buffer), channels copied from
`sourceData.subarray(startSample, endSample)`.  The boundary product
`endTime * sampleRate` is exact rational arithmetic here; the program computes
it in IEEE doubles, whose rounding can undershoot an integer boundary — the
float-semantics divergence is exhibited below on `fifteenBuffer` by feeding
this function the exact value of the double the program passes. -/
def trimAudio (b : AudioBuffer) (startTime endTime : ℚ) : AudioBuffer :=
  let startSample := ⌊startTime * b.sampleRate⌋
  let endSample := ⌊endTime * b.sampleRate⌋
  let len := (endSample - startSample).toNat
  { sampleRate := b.sampleRate
    length := len
    channels := (List.range b.numberOfChannels).map (fun c =>
      fillFrom len (subarray (getChannelData b c) startSample endSample)) }

/-- Embedding of `cutAudio` (audioUtils): removes `[startSample, endSample)`; the two
`set` calls write `subarray(0, startSample)` at offset `0` and
`subarray(endSample)` at offset `startSample`, i.e. (for in-range arguments)
the concatenation of the part before the cut and the part after it. -/
def cutAudio (b : AudioBuffer) (startTime endTime : ℚ) : AudioBuffer :=
  let startSample := ⌊startTime * b.sampleRate⌋
  let endSample := ⌊endTime * b.sampleRate⌋
  let len := ((b.length : ℤ) - (endSample - startSample)).toNat
  { sampleRate := b.sampleRate
    length := len
    channels := (List.range b.numberOfChannels).map (fun c =>
      fillFrom len (subarray (getChannelData b c) 0 startSample ++
        (getChannelData b c).drop endSample.toNat)) }

/-- A `DataView`-style in-place write: replace `vals.length` bytes of `buf`
starting at `off` (the pipeline only ever writes fully in range). -/
def setBytes (buf : List ℕ) (off : ℕ) (vals : List ℕ) : List ℕ :=
  buf.take off ++ vals ++ buf.drop (off + vals.length)

/-- Helper `writeString`: the char codes of an ASCII string. -/
def strBytes (s : String) : List ℕ := s.data.map Char.toNat

/-- Write `view.setUint16(off, n, true)`: two little-endian bytes of `n mod 2^16`. -/
def u16le (n : ℕ) : List ℕ := [n % 256, n / 256 % 256]

/-- Write `view.setUint32(off, n, true)`: four little-endian bytes of `n mod 2^32`. -/
def u32le (n : ℕ) : List ℕ := [n % 256, n / 256 % 256, n / 2 ^ 16 % 256, n / 2 ^ 24 % 256]

/-- Embedding of `exportAsWAV` (pcmExport): allocate `44 + pcmData.length` zero bytes, then
perform the source's write sequence (offsets as in the source) and return the
whole buffer as the blob contents. -/
def exportAsWAV (pcmData : List ℕ) (sampleRate : ℕ) : List ℕ :=
  setBytes (setBytes (setBytes (setBytes (setBytes (setBytes (setBytes (setBytes
  (setBytes (setBytes (setBytes (setBytes (setBytes (setBytes
    (List.replicate (44 + pcmData.length) 0)
    0 (strBytes "RIFF"))
    4 (u32le (36 + pcmData.length)))
    8 (strBytes "WAVE"))
    12 (strBytes "fmt "))
    16 (u32le 16))
    20 (u16le 1))
    22 (u16le 1))
    24 (u32le sampleRate))
    28 (u32le sampleRate))
    32 (u16le 1))
    34 (u16le 8))
    36 (strBytes "data"))
    40 (u32le pcmData.length))
    44 pcmData

/-- Padding `v.toString().padStart(3, ' ')`. -/
def pad3 (v : ℕ) : String :=
  let s := toString v
  String.mk (List.replicate (3 - s.length) (Char.ofNat 32)) ++ s

/-- The value-emitting loop of `exportAsCArray`: chunks of 16 bytes, each
line indented two spaces, values comma-separated and padded to width 3, with
a trailing comma exactly when `i + 16 < pcmData.length`, i.e. when another
chunk follows.  Structural recursion on a fuel equal to the byte count (one
chunk consumes at least one byte, so the fuel never runs out). -/
def chunkLinesAux : ℕ → List ℕ → List String
  | 0, _ => []
  | _, [] => []
  | fuel + 1, pcm@(_ :: _) =>
    ("  " ++ String.intercalate ", " ((pcm.take 16).map pad3) ++
      (if pcm.drop 16 = [] then "" else ",")) :: chunkLinesAux fuel (pcm.drop 16)

def chunkLines (pcm : List ℕ) : List String := chunkLinesAux pcm.length pcm

/-- The `lines` array built by `exportAsCArray` (pcmExport), in push order.
The source destructures `arrayName` (default `"audioData"`) and `sampleRate`
from its options record; the embedding takes them as parameters. -/
def exportAsCArrayLines (pcmData : List ℕ) (arrayName : String) (sampleRate : ℕ) :
    List String :=
  ["// PCM Audio Data - " ++ toString pcmData.length ++ " samples",
   "// Sample Rate: " ++ toString sampleRate ++ " Hz",
   "// Format: 8-bit unsigned PCM",
   "const uint8_t " ++ arrayName ++ "[] = \x7b"]
  ++ chunkLines pcmData
  ++ ["\x7d;",
      "const size_t " ++ arrayName ++ "_length = " ++ toString pcmData.length ++ ";"]

/-- Embedding of `exportAsCArray` (pcmExport): the lines joined with newlines. -/
def exportAsCArray (pcmData : List ℕ) (arrayName : String) (sampleRate : ℕ) : String :=
  String.intercalate "\n" (exportAsCArrayLines pcmData arrayName sampleRate)

/-- The concrete buffer of the spec's PCM scenario: 2 seconds of mono audio at
44100 Hz, every sample `0.5`. -/
def twoSecondHalfBuffer : AudioBuffer :=
  { sampleRate := 44100, length := 88200, channels := [List.replicate 88200 (0.5 : ℚ)] }

/-- The concrete buffer of the spec's length scenario: 1 second of silence at
44100 Hz. -/
def oneSecondBuffer : AudioBuffer :=
  { sampleRate := 44100, length := 44100, channels := [List.replicate 44100 0] }

/-- Embedding of `amplifyAudio` with the host error path: `createBuffer`
throws `NotSupportedError` when the requested frame count is zero (the
allocation length here is `audioBuffer.length`, so only an empty input buffer
fails); `none` models the thrown exception. -/
def amplifyAudioChecked (b : AudioBuffer) (gain : ℚ) : Option AudioBuffer :=
  if b.length = 0 then none else some (amplifyAudio b gain)

/-- Embedding of `pitchShift` with the host error path: `createBuffer` throws
`NotSupportedError` when the computed `newLength = Math.floor(length / ratio)`
is zero or negative, which large semitone ratios reach; `none` models the
thrown exception. -/
def pitchShiftChecked (b : AudioBuffer) ( ratio : ℚ) : Option AudioBuffer :=
  if ⌊(b.length : ℚ) / ratio⌋ ≤ 0 then none else some (pitchShift b ratio)

/-- Embedding of `changeSpeed` with the host error path: `createBuffer` throws
for a zero or negative `newLength = Math.floor(length / speed)` — reached by
`speed = 0` (the host's `length / 0 = Infinity` is converted to frame count
`0`, matching the model's `q / 0 = 0`), by negative speeds, and by any speed
exceeding the length; `none` models the thrown exception. -/
def changeSpeedChecked (b : AudioBuffer) (speed : ℚ) : Option AudioBuffer :=
  if ⌊(b.length : ℚ) / speed⌋ ≤ 0 then none else some (changeSpeed b speed)

/-- A small concrete buffer (4 frames at 8000 Hz) used to exhibit the
reachable error branches of the resampling transforms. -/
def fourFrameBuffer : AudioBuffer :=
  { sampleRate := 8000, length := 4, channels := [[0, 0, 0, 0]] }

/-- A 15-frame buffer at 44100 Hz: the smallest length at that rate for which
the program's IEEE-double `duration * sampleRate` undershoots the length. -/
def fifteenBuffer : AudioBuffer :=
  { sampleRate := 44100, length := 15, channels := [List.replicate 15 0] }

/-- The exact value of the IEEE-754 double `15 / 44100` — the `duration` the
program stores for `fifteenBuffer` and passes back to `trimAudio` as
`endTime`.  Its mantissa is `6274402746159711` (53 bits, binade
`[2^-12, 2^-11)`, unit in the last place `2^-64`); the theorem about it proves
the half-ulp bound that characterizes it as the round-to-nearest double. -/
def durationDouble : ℚ := 6274402746159711 / 2 ^ 64

/-! ## Helper lemmas -/

lemma neg_one_le_clamp (x : ℚ) : -1 ≤ clamp x := le_max_left _ _

lemma clamp_le_one (x : ℚ) : clamp x ≤ 1 := max_le (by norm_num) (min_le_left 1 x)

lemma fillFrom_length (n : ℕ) (l : List ℚ) : (fillFrom n l).length = n := by
  simp [fillFrom]
  omega

lemma fillFrom_of_length_eq {n : ℕ} {l : List ℚ} (h : l.length = n) : fillFrom n l = l := by
  subst h
  simp [fillFrom]

lemma resampleChannel_length (data : List ℚ) (r : ℚ) (n : ℕ) :
    (resampleChannel data r n).length = n := by
  unfold resampleChannel
  rw [List.length_map, List.length_range]

lemma getChannelData_eq (b : AudioBuffer) (c : ℕ) (hc : c < b.channels.length) :
    getChannelData b c = b.channels[c] := by
  simp [getChannelData, List.getD_eq_getElem?_getD, List.getElem?_eq_getElem hc]

lemma getChannelData_length (b : AudioBuffer) (h : b.Wellformed) (c : ℕ)
    (hc : c < b.channels.length) : (getChannelData b c).length = b.length := by
  rw [getChannelData_eq b c hc]
  exact h _ (List.getElem_mem hc)

lemma interpSample_natCast (data : List ℚ) (i : ℕ) (hi : i < data.length) :
    interpSample data (i : ℚ) = data[i] := by
  have hfloor : ⌊(i : ℚ)⌋ = (i : ℤ) := Int.floor_natCast i
  have hA : sampleAt data (i : ℤ) = data[i] := by
    simp [sampleAt, List.getD_eq_getElem?_getD, List.getElem?_eq_getElem hi]
  unfold interpSample
  simp only [hfloor]
  have hfr : (i : ℚ) - ((i : ℤ) : ℚ) = 0 := by push_cast; ring
  split
  · rw [hfr, hA]; ring
  · exact hA

lemma interpSample_replicate (n : ℕ) (a : ℚ) (si : ℚ) (h0 : 0 ≤ si)
    (hn : ⌊si⌋ < (n : ℤ)) : interpSample (List.replicate n a) si = a := by
  have h1 : 0 ≤ ⌊si⌋ := Int.le_floor.mpr (by exact_mod_cast h0)
  have hmem : ∀ k : ℤ, 0 ≤ k → k < (n : ℤ) → sampleAt (List.replicate n a) k = a := by
    intro k hk0 hkn
    have hk : k.toNat < n := by omega
    simp [sampleAt, hk0, List.getD_eq_getElem?_getD, List.getElem?_eq_getElem
      (by simpa using hk : k.toNat < (List.replicate n a).length)]
  unfold interpSample
  simp only [List.length_replicate]
  split
  · rename_i hlt
    rw [hmem _ h1 hn, hmem _ (by omega) (by exact_mod_cast hlt)]
    ring
  · exact hmem _ h1 hn

/-! ## Claims -/

lemma amplifyAudio_wellformed (b : AudioBuffer) (g : ℚ) :
    (amplifyAudio b g).Wellformed := by
  intro ch hch
  simp only [amplifyAudio, List.mem_map] at hch
  obtain ⟨c, -, rfl⟩ := hch
  simp [amplifyAudio, fillFrom_length]

lemma pitchShift_wellformed (b : AudioBuffer) (r : ℚ) :
    (pitchShift b r).Wellformed := by
  intro ch hch
  simp only [pitchShift, List.mem_map] at hch
  obtain ⟨c, -, rfl⟩ := hch
  simp [pitchShift, resampleChannel_length]

lemma changeSpeed_wellformed (b : AudioBuffer) (sp : ℚ) :
    (changeSpeed b sp).Wellformed := by
  intro ch hch
  simp only [changeSpeed, List.mem_map] at hch
  obtain ⟨c, -, rfl⟩ := hch
  simp [changeSpeed, resampleChannel_length]

/-- C3 counterexample: the error branch of the resampling transforms is
reachable by real-valued parameters, refuting the claim as stated.  Semitone
`+60` gives the exact ratio `2^(60/12) = 32`, and `pitchShift` on a 4-frame
buffer then asks `createBuffer` for `floor(4/32) = 0` frames — the host throws
`NotSupportedError` (`none`).  `changeSpeed` likewise errors at speed `0`,
at negative speeds, and at any speed exceeding the frame count. -/
theorem transforms_error_branch_reachable :
    (2 : ℝ) ^ ((60 : ℝ) / 12) = 32 ∧
    pitchShiftChecked fourFrameBuffer 32 = none ∧
    changeSpeedChecked fourFrameBuffer 0 = none ∧
    changeSpeedChecked fourFrameBuffer (-1) = none ∧
    changeSpeedChecked fourFrameBuffer 5 = none := by
  refine ⟨?_, ?_, ?_, ?_, ?_⟩
  · rw [show ((60 : ℝ) / 12) = ((5 : ℕ) : ℝ) by norm_num, Real.rpow_natCast]
    norm_num
  · unfold pitchShiftChecked
    rw [if_pos (by norm_num [fourFrameBuffer])]
  · unfold changeSpeedChecked
    rw [if_pos (by norm_num [fourFrameBuffer])]
  · unfold changeSpeedChecked
    rw [if_pos (by norm_num [fourFrameBuffer])]
  · unfold changeSpeedChecked
    rw [if_pos (by norm_num [fourFrameBuffer])]

/-- C3 (amended): `amplifyAudio` completes for every gain on every buffer with
a nonzero frame count (extreme gains only saturate); `pitchShift` and
`changeSpeed` raise the host's `createBuffer` error exactly when the computed
output length `floor(length/ratio)` resp. `floor(length/speed)` is zero or
negative, and otherwise complete; every successfully returned buffer is
wellformed (possibly degenerate or fully clamped). -/
theorem transforms_error_semantics (b : AudioBuffer) (g r sp : ℚ) :
    (amplifyAudioChecked b g = none ↔ b.length = 0) ∧
    (pitchShiftChecked b r = none ↔ ⌊(b.length : ℚ) / r⌋ ≤ 0) ∧
    (changeSpeedChecked b sp = none ↔ ⌊(b.length : ℚ) / sp⌋ ≤ 0) ∧
    (b.length ≠ 0 → amplifyAudioChecked b g = some (amplifyAudio b g)) ∧
    (0 < ⌊(b.length : ℚ) / r⌋ → pitchShiftChecked b r = some (pitchShift b r)) ∧
    (0 < ⌊(b.length : ℚ) / sp⌋ → changeSpeedChecked b sp = some (changeSpeed b sp)) ∧
    (amplifyAudio b g).Wellformed ∧ (pitchShift b r).Wellformed ∧
      (changeSpeed b sp).Wellformed := by
  refine ⟨?_, ?_, ?_, ?_, ?_, ?_,
    amplifyAudio_wellformed b g, pitchShift_wellformed b r, changeSpeed_wellformed b sp⟩
  · unfold amplifyAudioChecked
    split <;> rename_i h <;> simp [h]
  · unfold pitchShiftChecked
    split <;> rename_i h <;> simp [h]
  · unfold changeSpeedChecked
    split <;> rename_i h <;> simp [h]
  · intro h
    unfold amplifyAudioChecked
    rw [if_neg h]
  · intro h
    unfold pitchShiftChecked
    rw [if_neg (by omega)]
  · intro h
    unfold changeSpeedChecked
    rw [if_neg (by omega)]

/-- C3 witness: the success side at concrete parameters, discharging each
hypothesis. -/
theorem transforms_error_semantics_witness :
    amplifyAudioChecked fourFrameBuffer 2 = some (amplifyAudio fourFrameBuffer 2) ∧
    pitchShiftChecked fourFrameBuffer (1 / 2) = some (pitchShift fourFrameBuffer (1 / 2)) ∧
    changeSpeedChecked fourFrameBuffer 2 = some (changeSpeed fourFrameBuffer 2) :=
  ⟨(transforms_error_semantics fourFrameBuffer 2 (1 / 2) 2).2.2.2.1
      (by norm_num [fourFrameBuffer]),
   (transforms_error_semantics fourFrameBuffer 2 (1 / 2) 2).2.2.2.2.1
      (by norm_num [fourFrameBuffer]),
   (transforms_error_semantics fourFrameBuffer 2 (1 / 2) 2).2.2.2.2.2.1
      (by norm_num [fourFrameBuffer])⟩

/-- C6: `amplifyAudio` maps every sample of every channel to
`clamp (sample * gain)`, hence every output sample lies in `[-1, 1]`. -/
theorem amplify_clamps_all_channels (b : AudioBuffer) (gain : ℚ) (h : b.Wellformed) :
    (amplifyAudio b gain).channels =
      b.channels.map (fun ch => ch.map (fun s => clamp (s * gain))) ∧
    ∀ ch ∈ (amplifyAudio b gain).channels, ∀ s ∈ ch, -1 ≤ s ∧ s ≤ 1 := by
  have hch : (amplifyAudio b gain).channels =
      b.channels.map (fun ch => ch.map (fun s => clamp (s * gain))) := by
    simp only [amplifyAudio]
    apply List.ext_getElem
    · simp [AudioBuffer.numberOfChannels]
    · intro i h1 h2
      simp only [AudioBuffer.numberOfChannels, List.length_map, List.length_range] at h1 h2
      simp only [List.getElem_map, List.getElem_range]
      rw [getChannelData_eq b i h2]
      exact fillFrom_of_length_eq (by simpa using h _ (List.getElem_mem h2))
  refine ⟨hch, ?_⟩
  rw [hch]
  intro ch hmem s hs
  rw [List.mem_map] at hmem
  obtain ⟨ch0, -, rfl⟩ := hmem
  rw [List.mem_map] at hs
  obtain ⟨s0, -, rfl⟩ := hs
  exact ⟨neg_one_le_clamp _, clamp_le_one _⟩

/-- C6 witness at a concrete buffer. -/
theorem amplify_clamps_all_channels_witness :
    (amplifyAudio ⟨8000, 2, [[(0.5 : ℚ), -2]]⟩ 3).channels =
      [[(0.5 : ℚ), -2]].map (fun ch => ch.map (fun s => clamp (s * 3))) ∧
    ∀ ch ∈ (amplifyAudio ⟨8000, 2, [[(0.5 : ℚ), -2]]⟩ 3).channels,
      ∀ s ∈ ch, -1 ≤ s ∧ s ≤ 1 :=
  amplify_clamps_all_channels ⟨8000, 2, [[(0.5 : ℚ), -2]]⟩ 3 (by decide)

/-- C7: with `semitones = 0` the source's ratio is `2^(0/12) = 1`, and
`pitchShift` at ratio `1` is the identity: same length, same samples in every
channel (indeed, the very same buffer). -/
theorem pitchShift_zero_semitones_identity (b : AudioBuffer) (h : b.Wellformed) :
    (2 : ℝ) ^ ((0 : ℝ) / 12) = 1 ∧ pitchShift b 1 = b := by
  constructor
  · norm_num
  · obtain ⟨sr, len, chs⟩ := b
    have hlen : ((⌊((len : ℕ) : ℚ) / 1⌋).toNat) = len := by
      simp
    simp only [pitchShift]
    congr 1
    apply List.ext_getElem
    · simp [AudioBuffer.numberOfChannels]
    · intro i h1 h2
      simp only [AudioBuffer.numberOfChannels, List.length_map, List.length_range] at h1 h2
      simp only [List.getElem_map, List.getElem_range]
      have hchan : getChannelData ⟨sr, len, chs⟩ i = chs[i] :=
        getChannelData_eq ⟨sr, len, chs⟩ i h2
      have hlen2 : chs[i].length = len := h _ (List.getElem_mem h2)
      rw [hchan]
      apply List.ext_getElem
      · rw [resampleChannel_length, hlen, hlen2]
      · intro j hj1 hj2
        simp only [resampleChannel, List.getElem_map, List.getElem_range]
        rw [mul_one]
        exact interpSample_natCast _ j (by omega)

/-- C7 witness at a concrete buffer. -/
theorem pitchShift_zero_semitones_identity_witness :
    (2 : ℝ) ^ ((0 : ℝ) / 12) = 1 ∧
      pitchShift ⟨8000, 2, [[(0.5 : ℚ), -1/3]]⟩ 1 = ⟨8000, 2, [[(0.5 : ℚ), -1/3]]⟩ :=
  pitchShift_zero_semitones_identity ⟨8000, 2, [[(0.5 : ℚ), -1/3]]⟩ (by decide)

/-- C9: `trimAudio b 0 (length / sampleRate)` is the identity trim — the
returned buffer has exactly `b.length` frames (boundaries are converted by
`Math.floor(seconds * sampleRate)`, and `⌊(len/rate) * rate⌋ = len`). -/
theorem trim_identity_length (b : AudioBuffer) (h : 0 < b.sampleRate) :
    (trimAudio b 0 ((b.length : ℚ) / b.sampleRate)).length = b.length := by
  have h0 : ⌊(0 : ℚ) * b.sampleRate⌋ = 0 := by simp
  have h2 : ⌊((b.length : ℚ) / b.sampleRate) * b.sampleRate⌋ = (b.length : ℤ) := by
    rw [div_mul_cancel₀ _ (ne_of_gt h)]
    exact Int.floor_natCast _
  simp only [trimAudio, h0, h2]
  omega

/-- C9 witness at a concrete buffer. -/
theorem trim_identity_length_witness :
    (trimAudio ⟨2, 4, [[(1 : ℚ), 2, 3, 4]]⟩ 0 (((4 : ℕ) : ℚ) / 2)).length = 4 :=
  trim_identity_length ⟨2, 4, [[(1 : ℚ), 2, 3, 4]]⟩ (by norm_num)

/-- C9 counterexample, IEEE-double semantics: the program passes
`buf.duration`, the double `fl(15/44100) = 6274402746159711 / 2^64`, as
`endTime`.  The conjuncts verify that this rational is that double (53-bit
mantissa; the true quotient lies in the binade `[2^-12, 2^-11)` with unit in
the last place `2^-64`, and `durationDouble` is within half an ulp of it —
strictly, so it is the unique round-to-nearest value — and undershoots).  Its
exact product with `44100` lies in `[14, 15)` — more than half an ulp of the
`[8, 16)` binade below `15`, so the program's second rounding also stays below
`15` — hence `Math.floor` gives `endSample = 14` and the trim of the 15-frame
buffer returns `14` frames, refuting the identity-trim claim on the program. -/
theorem trim_identity_float_counterexample :
    durationDouble = 6274402746159711 / 2 ^ 64 ∧
    (2 : ℚ) ^ 52 ≤ 6274402746159711 ∧ (6274402746159711 : ℚ) < 2 ^ 53 ∧
    1 / 2 ^ 12 ≤ (15 : ℚ) / 44100 ∧ (15 : ℚ) / 44100 < 1 / 2 ^ 11 ∧
    durationDouble < (15 : ℚ) / 44100 ∧
    (15 : ℚ) / 44100 - durationDouble < 1 / 2 ^ 65 ∧
    14 ≤ durationDouble * 44100 ∧ durationDouble * 44100 < 15 ∧
    1 / 2 ^ 50 < 15 - durationDouble * 44100 ∧
    fifteenBuffer.length = 15 ∧
    (trimAudio fifteenBuffer 0 durationDouble).length = 14 := by
  refine ⟨rfl, by norm_num, by norm_num, by norm_num, by norm_num,
    by norm_num [durationDouble], by norm_num [durationDouble],
    by norm_num [durationDouble], by norm_num [durationDouble],
    by norm_num [durationDouble], rfl, ?_⟩
  have h0 : ⌊(0 : ℚ) * fifteenBuffer.sampleRate⌋ = 0 := by simp
  have h1 : ⌊durationDouble * fifteenBuffer.sampleRate⌋ = 14 := by
    have : durationDouble * fifteenBuffer.sampleRate =
        276701161105643255100 / 18446744073709551616 := by
      norm_num [durationDouble, fifteenBuffer]
    rw [this]
    norm_num [Int.floor_eq_iff]
  simp only [trimAudio, h0, h1]
  rfl

/-- C10: every buffer-returning transform preserves the input's sample rate
and its number of channels, for all parameter values. -/
theorem transforms_preserve_rate_and_channel_count (b : AudioBuffer)
    (g r sp s1 e1 s2 e2 : ℚ) :
    ((normalizeAudio b).sampleRate = b.sampleRate ∧
      (normalizeAudio b).numberOfChannels = b.numberOfChannels) ∧
    ((amplifyAudio b g).sampleRate = b.sampleRate ∧
      (amplifyAudio b g).numberOfChannels = b.numberOfChannels) ∧
    ((pitchShift b r).sampleRate = b.sampleRate ∧
      (pitchShift b r).numberOfChannels = b.numberOfChannels) ∧
    ((changeSpeed b sp).sampleRate = b.sampleRate ∧
      (changeSpeed b sp).numberOfChannels = b.numberOfChannels) ∧
    ((trimAudio b s1 e1).sampleRate = b.sampleRate ∧
      (trimAudio b s1 e1).numberOfChannels = b.numberOfChannels) ∧
    ((cutAudio b s2 e2).sampleRate = b.sampleRate ∧
      (cutAudio b s2 e2).numberOfChannels = b.numberOfChannels) := by
  refine ⟨?_, ?_, ?_, ?_, ?_, ?_⟩
  · by_cases h0 : maxAbs (getChannelData b 0) = 0 <;>
      simp [normalizeAudio, h0, AudioBuffer.numberOfChannels]
  · exact ⟨rfl, by simp [amplifyAudio, AudioBuffer.numberOfChannels]⟩
  · exact ⟨rfl, by simp [pitchShift, AudioBuffer.numberOfChannels]⟩
  · exact ⟨rfl, by simp [changeSpeed, AudioBuffer.numberOfChannels]⟩
  · exact ⟨rfl, by simp [trimAudio, AudioBuffer.numberOfChannels]⟩
  · exact ⟨rfl, by simp [cutAudio, AudioBuffer.numberOfChannels]⟩

/-- C5: `normalizeAudio` computes the peak over channel 0 only; a zero peak
returns the very input buffer, and otherwise channel 0 is scaled by
`0.95 / max` while every other channel is copied through unchanged. -/
theorem normalize_channel_zero_only (b : AudioBuffer) (h : b.Wellformed) :
    (maxAbs (getChannelData b 0) = 0 → normalizeAudio b = b) ∧
    (maxAbs (getChannelData b 0) ≠ 0 →
      (normalizeAudio b).channels =
        (List.range b.numberOfChannels).map (fun c =>
          if c = 0 then
            (getChannelData b 0).map (fun s => s * ((0.95 : ℚ) / maxAbs (getChannelData b 0)))
          else getChannelData b c)) := by
  constructor
  · intro h0
    simp [normalizeAudio, h0]
  · intro h0
    simp only [normalizeAudio, if_neg h0]
    apply List.map_congr_left
    intro c hc
    rw [List.mem_range] at hc
    by_cases hc0 : c = 0
    · subst hc0
      rw [if_pos rfl]
      apply fillFrom_of_length_eq
      rw [List.length_map]
      exact getChannelData_length b h 0 hc
    · simp only [if_neg hc0]
      exact fillFrom_of_length_eq (getChannelData_length b h c hc)

/-- C5 witness at a concrete buffer with a nonzero peak and a second channel. -/
theorem normalize_channel_zero_only_witness :
    (maxAbs (getChannelData ⟨8000, 2, [[(0.5 : ℚ), 0.25], [1, 1]]⟩ 0) = 0 →
      normalizeAudio ⟨8000, 2, [[(0.5 : ℚ), 0.25], [1, 1]]⟩ =
        ⟨8000, 2, [[(0.5 : ℚ), 0.25], [1, 1]]⟩) ∧
    (maxAbs (getChannelData ⟨8000, 2, [[(0.5 : ℚ), 0.25], [1, 1]]⟩ 0) ≠ 0 →
      (normalizeAudio ⟨8000, 2, [[(0.5 : ℚ), 0.25], [1, 1]]⟩).channels =
        (List.range (AudioBuffer.numberOfChannels ⟨8000, 2, [[(0.5 : ℚ), 0.25], [1, 1]]⟩)).map
          (fun c =>
            if c = 0 then
              (getChannelData ⟨8000, 2, [[(0.5 : ℚ), 0.25], [1, 1]]⟩ 0).map
                (fun s => s * ((0.95 : ℚ) /
                  maxAbs (getChannelData ⟨8000, 2, [[(0.5 : ℚ), 0.25], [1, 1]]⟩ 0)))
            else getChannelData ⟨8000, 2, [[(0.5 : ℚ), 0.25], [1, 1]]⟩ c)) :=
  normalize_channel_zero_only ⟨8000, 2, [[(0.5 : ℚ), 0.25], [1, 1]]⟩ (by decide)

/-- C2: the PCM byte sequence has length
`Math.floor(sourceLength * targetRate / sourceRate)`; in particular a
1-second 44100 Hz buffer converted at 8000 Hz yields exactly 8000 bytes. -/
theorem convertToPCM_length_floor :
    (∀ (b : AudioBuffer) (tgtRate : ℚ), 0 < b.sampleRate → 0 < tgtRate →
      ((convertToPCM b tgtRate).length : ℤ) =
        ⌊(((getChannelData b 0).length : ℚ) * tgtRate) / b.sampleRate⌋) ∧
    (convertToPCM oneSecondBuffer 8000).length = 8000 := by
  have hlen : ∀ (b : AudioBuffer) (tgtRate : ℚ), (convertToPCM b tgtRate).length =
      pcmTargetLength (getChannelData b 0).length b.sampleRate tgtRate := by
    intro b tgtRate
    simp [convertToPCM]
  constructor
  · intro b tgtRate hsr htr
    rw [hlen]
    unfold pcmTargetLength
    have hnn : (0 : ℚ) ≤ ((getChannelData b 0).length : ℚ) * tgtRate / b.sampleRate :=
      div_nonneg (mul_nonneg (Nat.cast_nonneg _) (le_of_lt htr)) (le_of_lt hsr)
    have hfl : 0 ≤ ⌊((getChannelData b 0).length : ℚ) * tgtRate / b.sampleRate⌋ :=
      Int.le_floor.mpr (by exact_mod_cast hnn)
    exact Int.toNat_of_nonneg hfl
  · rw [hlen]
    have h1 : getChannelData oneSecondBuffer 0 = List.replicate 44100 0 := rfl
    rw [h1, List.length_replicate]
    unfold pcmTargetLength
    have h2 : (((44100 : ℕ) : ℚ) * 8000) / oneSecondBuffer.sampleRate = ((8000 : ℕ) : ℚ) := by
      norm_num [oneSecondBuffer]
    rw [h2, Int.floor_natCast]
    rfl

/-- C2 witness at a concrete buffer and rate. -/
theorem convertToPCM_length_floor_witness :
    ((convertToPCM ⟨2, 2, [[(0 : ℚ), 0]]⟩ 3).length : ℤ) =
      ⌊(((getChannelData ⟨2, 2, [[(0 : ℚ), 0]]⟩ 0).length : ℚ) * 3) / 2⌋ :=
  convertToPCM_length_floor.1 ⟨2, 2, [[(0 : ℚ), 0]]⟩ 3 (by norm_num) (by norm_num)

lemma pcmSample_bounds (data : List ℚ) (srcRate tgtRate : ℚ) (i : ℕ) :
    -1 ≤ pcmSample data srcRate tgtRate i ∧ pcmSample data srcRate tgtRate i ≤ 1 := by
  unfold pcmSample
  exact ⟨neg_one_le_clamp _, clamp_le_one _⟩

lemma pcmVal_bounds (data : List ℚ) (srcRate tgtRate : ℚ) (i : ℕ) :
    0 ≤ pcmVal data srcRate tgtRate i ∧ pcmVal data srcRate tgtRate i ≤ 255 := by
  obtain ⟨h1, h2⟩ := pcmSample_bounds data srcRate tgtRate i
  unfold pcmVal jsRound
  constructor
  · apply Int.le_floor.mpr
    push_cast
    nlinarith
  · have hlt : (pcmSample data srcRate tgtRate i + 1) * (127.5 : ℚ) + 1 / 2 < 256 := by
      nlinarith
    have := Int.floor_lt.mpr (by exact_mod_cast hlt :
      (pcmSample data srcRate tgtRate i + 1) * (127.5 : ℚ) + 1 / 2 < ((256 : ℤ) : ℚ))
    omega

lemma convertToPCM_getD (b : AudioBuffer) (tgtRate : ℚ) (i : ℕ)
    (hi : i < pcmTargetLength (getChannelData b 0).length b.sampleRate tgtRate) :
    (convertToPCM b tgtRate).getD i 0 =
      ((pcmVal (getChannelData b 0) b.sampleRate tgtRate i) % 256).toNat := by
  unfold convertToPCM
  rw [List.getD_eq_getElem?_getD, List.getElem?_map, List.getElem?_range hi]
  rfl

/-- C1: every byte `convertToPCM` produces lies in `[0, 255]` and equals
`Math.round((clamp(sample) + 1) * 127.5)` for the interpolated sample at that
index (no `Uint8Array` wrapping ever occurs); and the 2-second all-`0.5` mono
44100 Hz buffer converted at 8000 Hz yields 16000 bytes, all equal to 191. -/
theorem convertToPCM_bytes_in_range :
    (∀ (b : AudioBuffer) (tgtRate : ℚ) (i : ℕ),
      i < pcmTargetLength (getChannelData b 0).length b.sampleRate tgtRate →
      0 ≤ pcmVal (getChannelData b 0) b.sampleRate tgtRate i ∧
      pcmVal (getChannelData b 0) b.sampleRate tgtRate i ≤ 255 ∧
      pcmVal (getChannelData b 0) b.sampleRate tgtRate i =
        jsRound ((clamp (interpSample (getChannelData b 0)
          (((i : ℚ) * b.sampleRate) / tgtRate)) + 1) * (127.5 : ℚ)) ∧
      (convertToPCM b tgtRate).getD i 0 =
        (pcmVal (getChannelData b 0) b.sampleRate tgtRate i).toNat) ∧
    convertToPCM twoSecondHalfBuffer 8000 = List.replicate 16000 191 := by
  constructor
  · intro b tgtRate i hi
    obtain ⟨h0, h255⟩ := pcmVal_bounds (getChannelData b 0) b.sampleRate tgtRate i
    refine ⟨h0, h255, rfl, ?_⟩
    rw [convertToPCM_getD b tgtRate i hi,
      Int.emod_eq_of_lt h0 (by omega : pcmVal (getChannelData b 0) b.sampleRate tgtRate i < 256)]
  · have hdata : getChannelData twoSecondHalfBuffer 0 = List.replicate 88200 (0.5 : ℚ) := rfl
    have hN : pcmTargetLength (getChannelData twoSecondHalfBuffer 0).length
        twoSecondHalfBuffer.sampleRate 8000 = 16000 := by
      rw [hdata, List.length_replicate]
      unfold pcmTargetLength
      have h2 : (((88200 : ℕ) : ℚ) * 8000) / twoSecondHalfBuffer.sampleRate =
          ((16000 : ℕ) : ℚ) := by
        norm_num [twoSecondHalfBuffer]
      rw [h2, Int.floor_natCast]
      rfl
    have hmap : convertToPCM twoSecondHalfBuffer 8000 =
        (List.range 16000).map (fun i =>
          ((pcmVal (getChannelData twoSecondHalfBuffer 0) twoSecondHalfBuffer.sampleRate
            8000 i) % 256).toNat) := by
      simp only [convertToPCM]
      rw [hN]
    rw [hmap]
    refine List.eq_replicate_iff.mpr ⟨by rw [List.length_map, List.length_range], ?_⟩
    intro x hx
    rw [List.mem_map] at hx
    obtain ⟨i, hi, rfl⟩ := hx
    rw [List.mem_range] at hi
    have hsr : twoSecondHalfBuffer.sampleRate = (44100 : ℚ) := rfl
    have hval : pcmVal (getChannelData twoSecondHalfBuffer 0) twoSecondHalfBuffer.sampleRate
        8000 i = 191 := by
      have hnn : (0 : ℚ) ≤ (i : ℚ) * 44100 / 8000 := by positivity
      have hflt : ((i : ℚ) * 44100 / 8000) < 88200 := by
        rw [div_lt_iff₀ (by norm_num : (0 : ℚ) < 8000)]
        have hi2 : (i : ℚ) < 16000 := by exact_mod_cast hi
        nlinarith
      have hfl : ⌊(i : ℚ) * 44100 / 8000⌋ < ((88200 : ℕ) : ℤ) :=
        Int.floor_lt.mpr (by exact_mod_cast hflt)
      have hint : interpSample (List.replicate 88200 (0.5 : ℚ)) ((i : ℚ) * 44100 / 8000)
          = 0.5 := interpSample_replicate 88200 (0.5 : ℚ) _ hnn hfl
      have hcl : clamp (0.5 : ℚ) = 0.5 := by
        unfold clamp
        rw [min_eq_right (by norm_num : (0.5 : ℚ) ≤ 1),
          max_eq_right (by norm_num : (-1 : ℚ) ≤ 0.5)]
      unfold pcmVal pcmSample
      rw [hsr, hdata, hint, hcl]
      unfold jsRound
      rw [show ((0.5 : ℚ) + 1) * 127.5 + 1 / 2 = 191 + 3 / 4 by norm_num]
      rw [Int.floor_eq_iff]
      constructor <;> norm_num
    rw [hval]
    rfl

/-- C1 witness: a concrete conversion with an out-of-range sample (`5` and
`-5` clamp to the extreme bytes). -/
theorem convertToPCM_bytes_in_range_witness :
    0 ≤ pcmVal (getChannelData ⟨8000, 2, [[(5 : ℚ), -5]]⟩ 0) (8000 : ℚ) 8000 0 ∧
    pcmVal (getChannelData ⟨8000, 2, [[(5 : ℚ), -5]]⟩ 0) (8000 : ℚ) 8000 0 ≤ 255 ∧
    pcmVal (getChannelData ⟨8000, 2, [[(5 : ℚ), -5]]⟩ 0) (8000 : ℚ) 8000 0 =
      jsRound ((clamp (interpSample (getChannelData ⟨8000, 2, [[(5 : ℚ), -5]]⟩ 0)
        (((0 : ℕ) : ℚ) * (8000 : ℚ) / 8000)) + 1) * (127.5 : ℚ)) ∧
    (convertToPCM ⟨8000, 2, [[(5 : ℚ), -5]]⟩ 8000).getD 0 0 =
      (pcmVal (getChannelData ⟨8000, 2, [[(5 : ℚ), -5]]⟩ 0) (8000 : ℚ) 8000 0).toNat :=
  convertToPCM_bytes_in_range.1 ⟨8000, 2, [[(5 : ℚ), -5]]⟩ 8000 0 (by
    norm_num [pcmTargetLength, getChannelData])

lemma getLast?_append_pair (l₁ l₂ : List String) (a b : String) :
    (l₁ ++ (l₂ ++ [a, b])).getLast? = some b := by
  simp [List.getLast?_append]

lemma u16le_length (n : ℕ) : (u16le n).length = 2 := rfl

lemma u32le_length (n : ℕ) : (u32le n).length = 4 := rfl

lemma setBytes_rep (vals : List ℕ) (n k : ℕ) (hn : n = vals.length + k) :
    setBytes (List.replicate n 0) 0 vals = vals ++ List.replicate k 0 := by
  subst hn
  unfold setBytes
  simp [List.drop_replicate]

lemma setBytes_step (P vals : List ℕ) (off n k : ℕ) (hoff : P.length = off)
    (hn : n = vals.length + k) :
    setBytes (P ++ List.replicate n 0) off vals =
      (P ++ vals) ++ List.replicate k 0 := by
  subst hoff hn
  unfold setBytes
  rw [List.take_left, ← List.drop_drop, List.drop_left,
    List.drop_replicate, Nat.add_sub_cancel_left]

/-- C4: `exportAsWAV` returns `44 + dataLength` bytes: the exact little-endian
RIFF/WAVE header (`"RIFF"`, `36+len` u32, `"WAVE"`, `"fmt "`, chunk size 16,
PCM format 1, mono 1, sample rate, byte rate = sample rate, block align 1,
8 bits per sample, `"data"`, `len` u32) followed by the PCM bytes verbatim. -/
theorem exportAsWAV_layout (pcm : List ℕ) (rate : ℕ) :
    exportAsWAV pcm rate =
      strBytes "RIFF" ++ u32le (36 + pcm.length) ++ strBytes "WAVE" ++ strBytes "fmt " ++
        u32le 16 ++ u16le 1 ++ u16le 1 ++ u32le rate ++ u32le rate ++ u16le 1 ++
        u16le 8 ++ strBytes "data" ++ u32le pcm.length ++ pcm ∧
    (exportAsWAV pcm rate).length = 44 + pcm.length ∧
    strBytes "RIFF" = [82, 73, 70, 70] ∧ strBytes "WAVE" = [87, 65, 86, 69] ∧
    strBytes "fmt " = [102, 109, 116, 32] ∧ strBytes "data" = [100, 97, 116, 97] ∧
    u32le 16 = [16, 0, 0, 0] ∧ u16le 1 = [1, 0] ∧ u16le 8 = [8, 0] := by
  have sR : strBytes "RIFF" = [82, 73, 70, 70] := by decide
  have sW : strBytes "WAVE" = [87, 65, 86, 69] := by decide
  have sF : strBytes "fmt " = [102, 109, 116, 32] := by decide
  have sD : strBytes "data" = [100, 97, 116, 97] := by decide
  have s16 : u32le 16 = [16, 0, 0, 0] := by decide
  have s1 : u16le 1 = [1, 0] := by decide
  have s8 : u16le 8 = [8, 0] := by decide
  have hmain : exportAsWAV pcm rate =
      strBytes "RIFF" ++ u32le (36 + pcm.length) ++ strBytes "WAVE" ++ strBytes "fmt " ++
        u32le 16 ++ u16le 1 ++ u16le 1 ++ u32le rate ++ u32le rate ++ u16le 1 ++
        u16le 8 ++ strBytes "data" ++ u32le pcm.length ++ pcm := by
    unfold exportAsWAV
    rw [sR, sW, sF, sD, s16, s1, s8]
    rw [setBytes_rep [82, 73, 70, 70] (44 + pcm.length) (40 + pcm.length) (by simp only [List.length_cons, List.length_nil]; omega)]
    rw [setBytes_step [82, 73, 70, 70] (u32le (36 + pcm.length)) 4
      (40 + pcm.length) (36 + pcm.length) (by simp) (by rw [u32le_length]; omega)]
    rw [setBytes_step ([82, 73, 70, 70] ++ u32le (36 + pcm.length)) [87, 65, 86, 69] 8
      (36 + pcm.length) (32 + pcm.length) (by simp [u32le_length]) (by simp only [List.length_cons, List.length_nil]; omega)]
    rw [setBytes_step (([82, 73, 70, 70] ++ u32le (36 + pcm.length)) ++ [87, 65, 86, 69])
      [102, 109, 116, 32] 12
      (32 + pcm.length) (28 + pcm.length) (by simp [u32le_length]) (by simp only [List.length_cons, List.length_nil]; omega)]
    rw [setBytes_step ((([82, 73, 70, 70] ++ u32le (36 + pcm.length)) ++ [87, 65, 86, 69]) ++
        [102, 109, 116, 32]) [16, 0, 0, 0] 16
      (28 + pcm.length) (24 + pcm.length) (by simp [u32le_length]) (by simp only [List.length_cons, List.length_nil]; omega)]
    rw [setBytes_step (((([82, 73, 70, 70] ++ u32le (36 + pcm.length)) ++ [87, 65, 86, 69]) ++
        [102, 109, 116, 32]) ++ [16, 0, 0, 0]) [1, 0] 20
      (24 + pcm.length) (22 + pcm.length) (by simp [u32le_length]) (by simp only [List.length_cons, List.length_nil]; omega)]
    rw [setBytes_step ((((([82, 73, 70, 70] ++ u32le (36 + pcm.length)) ++ [87, 65, 86, 69]) ++
        [102, 109, 116, 32]) ++ [16, 0, 0, 0]) ++ [1, 0]) [1, 0] 22
      (22 + pcm.length) (20 + pcm.length) (by simp [u32le_length]) (by simp only [List.length_cons, List.length_nil]; omega)]
    rw [setBytes_step (((((([82, 73, 70, 70] ++ u32le (36 + pcm.length)) ++ [87, 65, 86, 69]) ++
        [102, 109, 116, 32]) ++ [16, 0, 0, 0]) ++ [1, 0]) ++ [1, 0]) (u32le rate) 24
      (20 + pcm.length) (16 + pcm.length) (by simp [u32le_length]) (by rw [u32le_length]; omega)]
    rw [setBytes_step ((((((([82, 73, 70, 70] ++ u32le (36 + pcm.length)) ++ [87, 65, 86, 69]) ++
        [102, 109, 116, 32]) ++ [16, 0, 0, 0]) ++ [1, 0]) ++ [1, 0]) ++ u32le rate)
      (u32le rate) 28
      (16 + pcm.length) (12 + pcm.length) (by simp [u32le_length]) (by rw [u32le_length]; omega)]
    rw [setBytes_step (((((((([82, 73, 70, 70] ++ u32le (36 + pcm.length)) ++ [87, 65, 86, 69]) ++
        [102, 109, 116, 32]) ++ [16, 0, 0, 0]) ++ [1, 0]) ++ [1, 0]) ++ u32le rate) ++
        u32le rate) [1, 0] 32
      (12 + pcm.length) (10 + pcm.length) (by simp [u32le_length]) (by simp only [List.length_cons, List.length_nil]; omega)]
    rw [setBytes_step ((((((((([82, 73, 70, 70] ++ u32le (36 + pcm.length)) ++ [87, 65, 86, 69]) ++
        [102, 109, 116, 32]) ++ [16, 0, 0, 0]) ++ [1, 0]) ++ [1, 0]) ++ u32le rate) ++
        u32le rate) ++ [1, 0]) [8, 0] 34
      (10 + pcm.length) (8 + pcm.length) (by simp [u32le_length]) (by simp only [List.length_cons, List.length_nil]; omega)]
    rw [setBytes_step (((((((((([82, 73, 70, 70] ++ u32le (36 + pcm.length)) ++
        [87, 65, 86, 69]) ++ [102, 109, 116, 32]) ++ [16, 0, 0, 0]) ++ [1, 0]) ++ [1, 0]) ++
        u32le rate) ++ u32le rate) ++ [1, 0]) ++ [8, 0]) [100, 97, 116, 97] 36
      (8 + pcm.length) (4 + pcm.length) (by simp [u32le_length]) (by simp only [List.length_cons, List.length_nil]; omega)]
    rw [setBytes_step ((((((((((([82, 73, 70, 70] ++ u32le (36 + pcm.length)) ++
        [87, 65, 86, 69]) ++ [102, 109, 116, 32]) ++ [16, 0, 0, 0]) ++ [1, 0]) ++ [1, 0]) ++
        u32le rate) ++ u32le rate) ++ [1, 0]) ++ [8, 0]) ++ [100, 97, 116, 97])
      (u32le pcm.length) 40
      (4 + pcm.length) pcm.length (by simp [u32le_length]) (by rw [u32le_length])]
    rw [setBytes_step (((((((((((([82, 73, 70, 70] ++ u32le (36 + pcm.length)) ++
        [87, 65, 86, 69]) ++ [102, 109, 116, 32]) ++ [16, 0, 0, 0]) ++ [1, 0]) ++ [1, 0]) ++
        u32le rate) ++ u32le rate) ++ [1, 0]) ++ [8, 0]) ++ [100, 97, 116, 97]) ++
        u32le pcm.length) pcm 44
      pcm.length 0 (by simp [u32le_length]) (by omega)]
    simp [List.append_assoc]
  refine ⟨hmain, ?_, sR, sW, sF, sD, s16, s1, s8⟩
  rw [hmain, sR, sW, sF, sD, s16, s1, s8]
  simp [List.length_append, u32le_length, u16le_length]
  omega

/-- C8: `exportAsCArray` emits the comment header, the
`const uint8_t <name>[] = {` declaration, the 16-per-line padded byte values,
the closing brace and the `const size_t <name>_length = N;` final line; for
bytes `[0,128,255]` and name `"x"` the output lines are exactly the expected
ones, including `const uint8_t x[] = {` and the final
`const size_t x_length = 3;`. -/
theorem exportAsCArray_format :
    (∀ (pcm : List ℕ) (name : String) (rate : ℕ),
      ("const uint8_t " ++ name ++ "[] = \x7b") ∈ exportAsCArrayLines pcm name rate ∧
      (exportAsCArrayLines pcm name rate).getLast? =
        some ("const size_t " ++ name ++ "_length = " ++ toString pcm.length ++ ";") ∧
      exportAsCArray pcm name rate =
        String.intercalate "\n" (exportAsCArrayLines pcm name rate)) ∧
    exportAsCArrayLines [0, 128, 255] "x" 8000 =
      ["// PCM Audio Data - 3 samples", "// Sample Rate: 8000 Hz",
       "// Format: 8-bit unsigned PCM", "const uint8_t x[] = \x7b",
       "    0, 128, 255", "\x7d;", "const size_t x_length = 3;"] := by
  constructor
  · intro pcm name rate
    refine ⟨?_, ?_, rfl⟩
    · unfold exportAsCArrayLines
      simp
    · unfold exportAsCArrayLines
      rw [List.append_assoc]
      exact getLast?_append_pair _ _ _ _
  · decide

end TTS
